import Mathlib

/-!
Shallow embedding of the user-repository core of the `clean-architecture`
service: the concurrency-safe in-memory store
(`internal/infrastructure/database/mock_user_repository.go`) and the
relational adapter (`PostgresUserRepository`).

Modelling conventions:
* `time.Time` is modelled as `Nat` (nanosecond ticks); the Go zero time is
  `0`, matching `t.IsZero()`.  Each operation that calls `time.Now()`
  receives the current instant as an explicit `now : Nat` argument.
* The Go map `map[string]*entities.User` is modelled as a `List User`
  keyed by the `id` field (every insert `r.users[user.ID] = u` stores the
  record under its own id, so the key is recoverable from the value).
  Go map iteration order is unspecified and may differ between two range
  loops over the same unmodified map; operations whose result depends on
  iteration order (`List`) therefore take the visiting sequence as an
  explicit argument, constrained to be a permutation of the stored
  records where a claim needs it.
* Go's `error` values, which the source builds with `errors.New` on fixed
  strings, are modelled as the closed kind enumeration `RepoErr`:
  `alreadyExists` stands for "user with this email already exists",
  `notFound` for "user not found", and `internal` for a backing-store
  failure passed through by the relational adapter.
* The relational backend (gorm) is modelled by `PgDb`: the table rows
  plus a `fault` flag meaning "the connection is broken: every statement
  fails with a driver error".  `First` on a working connection returns
  the first matching row or `gorm.ErrRecordNotFound`.
* Pointer mutation of the `*entities.User` argument (Create/Update write
  id and timestamps through the pointer) is modelled by returning the
  final value of the argument alongside the new store state.
-/

/-- `entities.User` from `internal/domain/entities/user.go`. -/
structure User where
  id : String
  email : String
  name : String
  createdAt : Nat
  updatedAt : Nat
deriving DecidableEq, Repr

/-- Closed error-kind enumeration for the repository contract (§7 of the
design: AlreadyExists / NotFound / Internal). -/
inductive RepoErr where
  | alreadyExists
  | notFound
  | internal
deriving DecidableEq, Repr

/-- The in-memory store state: the contents of `r.users`, keyed by `id`. -/
abbrev Store := List User

/-- Go map write `r.users[u.ID] = u`: replace the entry with the same key
if present, otherwise add a new entry. -/
def mapInsert (st : Store) (u : User) : Store :=
  if st.any (fun v => v.id == u.id) then
    st.map (fun v => if v.id == u.id then u else v)
  else
    st ++ [u]

/-- The id/timestamp defaulting at the top of `MockUserRepository.Create`:
generate an id from the current nanosecond clock when unset, and set both
timestamps to `now` when zero. -/
def createDefaults (u : User) (now : Nat) : User :=
  let u1 := if u.id = "" then { u with id := "user_" ++ toString now } else u
  let u2 := if u1.createdAt = 0 then { u1 with createdAt := now } else u1
  if u2.updatedAt = 0 then { u2 with updatedAt := now } else u2

/-- `MockUserRepository.Create`.  Returns the new store contents, the final
value of the caller's `*user` (which the method mutates in place), and the
error result. -/
def mockCreate (st : Store) (u : User) (now : Nat) : Store × User × Option RepoErr :=
  let u3 := createDefaults u now
  if st.any (fun v => v.email == u3.email) then
    (st, u3, some .alreadyExists)
  else
    (mapInsert st u3, u3, none)

/-- `MockUserRepository.GetByID`: map lookup; a missing key yields
`(nil, nil)`.  The source returns a field-by-field copy of the stored
record, which is the same value. -/
def mockGetByID (st : Store) (id : String) : Option User × Option RepoErr :=
  match st.find? (fun v => v.id == id) with
  | none => (none, none)
  | some u => (some u, none)

/-- `MockUserRepository.GetByEmail`: linear scan; no match yields
`(nil, nil)`. -/
def mockGetByEmail (st : Store) (email : String) : Option User × Option RepoErr :=
  match st.find? (fun v => v.email == email) with
  | none => (none, none)
  | some u => (some u, none)

/-- `MockUserRepository.Update`: fails with "user not found" when the id is
absent; otherwise stores a fresh record carrying the supplied name/email,
the previously stored `CreatedAt` and `UpdatedAt := now`. -/
def mockUpdate (st : Store) (u : User) (now : Nat) : Store × Option RepoErr :=
  match st.find? (fun v => v.id == u.id) with
  | none => (st, some .notFound)
  | some existing =>
      (mapInsert st
        { id := u.id, email := u.email, name := u.name,
          createdAt := existing.createdAt, updatedAt := now }, none)

/-- `MockUserRepository.Delete`: fails with "user not found" when the id is
absent; otherwise removes the map entry. -/
def mockDelete (st : Store) (id : String) : Store × Option RepoErr :=
  if st.any (fun v => v.id == id) then
    (st.filter (fun v => v.id ≠ id), none)
  else
    (st, some .notFound)

/-- The loop body of `MockUserRepository.List`: `count` counts every
visited record, records are appended once `count >= offset`, and the loop
breaks when `len(users) >= limit` is observed on a visited record. -/
def listLoop : List User → Int → Int → Int → List User → List User
  | [], _, _, _, acc => acc
  | u :: rest, limit, offset, count, acc =>
      if count ≥ offset then
        if (acc.length : Int) ≥ limit then acc
        else listLoop rest limit offset (count + 1) (acc ++ [u])
      else listLoop rest limit offset (count + 1) acc

/-- `MockUserRepository.List`.  `visit` is the sequence in which the Go
`range` loop visits the map's records — unspecified by the language, so it
is an explicit parameter; a caller-faithful use constrains it to a
permutation of the store.  The error result is always `nil`. -/
def mockList (visit : List User) (limit offset : Int) : List User × Option RepoErr :=
  (listLoop visit limit offset 0 [], none)

/-! ### The relational adapter (`PostgresUserRepository`) -/

/-- Errors a single gorm statement can produce in the model. -/
inductive PgErr where
  | recordNotFound
  | connFailure
deriving DecidableEq, Repr

/-- The gorm backend: the `users` table rows, plus a fault flag meaning the
connection is broken and every statement fails with a driver error. -/
structure PgDb where
  rows : List User
  fault : Bool
deriving DecidableEq, Repr

/-- `db.Where(cond).First(&u)`: first matching row, `ErrRecordNotFound`
when none matches, a driver error when the connection is down. -/
def pgFirst (db : PgDb) (p : User → Bool) : Except PgErr User :=
  if db.fault then .error .connFailure
  else
    match db.rows.find? p with
    | some u => .ok u
    | none => .error .recordNotFound

/-- `PostgresUserRepository.Create`.  The email existence check runs
first (`err == nil` means a row was found); only then are id and
timestamps defaulted and the row inserted.  `freshId` stands for the
random id `generateID()` would produce. -/
def pgCreate (db : PgDb) (u : User) (freshId : String) (now : Nat) :
    PgDb × User × Option RepoErr :=
  match pgFirst db (fun v => v.email == u.email) with
  | .ok _ => (db, u, some .alreadyExists)
  | .error _ =>
      let u1 := if u.id = "" then { u with id := freshId } else u
      let u2 := if u1.createdAt = 0 then { u1 with createdAt := now } else u1
      let u3 := if u2.updatedAt = 0 then { u2 with updatedAt := now } else u2
      if db.fault then (db, u3, some .internal)
      else ({ db with rows := db.rows ++ [u3] }, u3, none)

/-- `PostgresUserRepository.GetByID`: `ErrRecordNotFound` translates to
`(nil, nil)`; any other statement error is passed through. -/
def pgGetByID (db : PgDb) (id : String) : Option User × Option RepoErr :=
  match pgFirst db (fun v => v.id == id) with
  | .ok u => (some u, none)
  | .error .recordNotFound => (none, none)
  | .error .connFailure => (none, some .internal)

/-- `PostgresUserRepository.GetByEmail`: same shape keyed by email. -/
def pgGetByEmail (db : PgDb) (email : String) : Option User × Option RepoErr :=
  match pgFirst db (fun v => v.email == email) with
  | .ok u => (some u, none)
  | .error .recordNotFound => (none, none)
  | .error .connFailure => (none, some .internal)

/-- `PostgresUserRepository.Update`: existence check by id
(`ErrRecordNotFound` becomes "user not found"), then the caller's record is
mutated (`UpdatedAt := now`, `CreatedAt` restored from the stored row) and
saved over the existing primary key. -/
def pgUpdate (db : PgDb) (u : User) (now : Nat) : PgDb × User × Option RepoErr :=
  match pgFirst db (fun v => v.id == u.id) with
  | .error .recordNotFound => (db, u, some .notFound)
  | .error .connFailure => (db, u, some .internal)
  | .ok existing =>
      let u2 := { u with updatedAt := now, createdAt := existing.createdAt }
      ({ db with rows := db.rows.map (fun v => if v.id == u2.id then u2 else v) },
        u2, none)

/-- `PostgresUserRepository.Delete`: delete by id; a driver error is passed
through, and zero affected rows surfaces as "user not found". -/
def pgDelete (db : PgDb) (id : String) : PgDb × Option RepoErr :=
  if db.fault then (db, some .internal)
  else
    let remaining := db.rows.filter (fun v => v.id ≠ id)
    if remaining.length = db.rows.length then (db, some .notFound)
    else ({ db with rows := remaining }, none)

/-! ### Store invariants -/

/-- No two stored records share an id (always true of the Go map, whose
keys are the records' ids). -/
def idUnique (st : List User) : Prop :=
  st.Pairwise (fun a b => a.id ≠ b.id)

/-- §3 invariant "exactly one live record may exist per email value". -/
def emailUnique (st : List User) : Prop :=
  st.Pairwise (fun a b => a.email ≠ b.email)

/-- §3 invariant "`updatedAt >= createdAt` always". -/
def tsInv (st : List User) : Prop :=
  ∀ u ∈ st, u.createdAt ≤ u.updatedAt

instance : DecidablePred idUnique := fun _ =>
  inferInstanceAs (Decidable (List.Pairwise _ _))

instance : DecidablePred emailUnique := fun _ =>
  inferInstanceAs (Decidable (List.Pairwise _ _))

example :
    mockCreate [] ⟨"", "a@x.com", "A", 0, 0⟩ 7 =
      ([⟨"user_7", "a@x.com", "A", 7, 7⟩], ⟨"user_7", "a@x.com", "A", 7, 7⟩, none) := by
  decide

/-! ### Helper lemmas -/

theorem genId_ne_empty (n : Nat) : ("user_" ++ toString n) ≠ "" := by
  intro h
  have hl := congrArg String.length h
  simp [String.length_append] at hl
  exact absurd hl.1 (by decide)

theorem createDefaults_email (u : User) (now : Nat) :
    (createDefaults u now).email = u.email := by
  rcases u with ⟨i, e, nm, c, up⟩
  unfold createDefaults
  by_cases h1 : i = "" <;> by_cases h2 : c = 0 <;> by_cases h3 : up = 0 <;>
    simp [h1, h2, h3]

theorem createDefaults_of_zero (u : User) (now : Nat)
    (hid : u.id = "") (hc : u.createdAt = 0) (hup : u.updatedAt = 0) :
    createDefaults u now =
      { u with id := "user_" ++ toString now, createdAt := now, updatedAt := now } := by
  rcases u with ⟨i, e, nm, c, up⟩
  simp only at hid hc hup
  subst hid; subst hc; subst hup
  unfold createDefaults
  by_cases hn : now = 0 <;> simp [hn]

/-- After replacing every record that carries id `u.id` by `u`, looking up
that id finds `u`. -/
theorem map_replace_find_self (st : List User) (u : User)
    (h : ∃ x ∈ st, x.id = u.id) :
    (st.map (fun v => if v.id == u.id then u else v)).find?
      (fun v => v.id == u.id) = some u := by
  rw [List.find?_map]
  have hpf : ((fun v : User => v.id == u.id) ∘
      fun v : User => if v.id == u.id then u else v) =
      (fun v : User => v.id == u.id) := by
    funext v
    by_cases hv : v.id = u.id <;> simp [hv]
  rw [hpf]
  obtain ⟨x, hx, hpx⟩ := h
  have hsome : (st.find? (fun v => v.id == u.id)).isSome := by
    rw [List.find?_isSome]
    exact ⟨x, hx, by simp [hpx]⟩
  obtain ⟨w, hw⟩ := Option.isSome_iff_exists.mp hsome
  have hwid := List.find?_some hw
  simp only [beq_iff_eq] at hwid
  simp [hw, hwid]

/-- Looking up the inserted record's own id finds exactly that record. -/
theorem mapInsert_find_self (st : Store) (u : User) :
    (mapInsert st u).find? (fun v => v.id == u.id) = some u := by
  unfold mapInsert
  by_cases h : st.any (fun v => v.id == u.id)
  · simp only [h, if_true]
    obtain ⟨x, hx, hpx⟩ := List.any_eq_true.mp h
    exact map_replace_find_self st u ⟨x, hx, by simpa using hpx⟩
  · simp only [h, if_false, Bool.false_eq_true]
    rw [List.find?_append]
    have hnone : st.find? (fun v => v.id == u.id) = none := by
      rw [List.find?_eq_none]
      intro x hx hpx
      exact h (List.any_eq_true.mpr ⟨x, hx, hpx⟩)
    simp [hnone]

/-- Records whose id differs from the inserted one are untouched by the
insert. -/
theorem mapInsert_mem_of_ne (st : Store) (u v : User) (hv : v ∈ st)
    (hne : v.id ≠ u.id) : v ∈ mapInsert st u := by
  unfold mapInsert
  by_cases h : st.any (fun w => w.id == u.id)
  · simp only [h, if_true]
    have : (if v.id == u.id then u else v) = v := by simp [hne]
    rw [← this]
    exact List.mem_map_of_mem _ hv
  · simp only [h, if_false, Bool.false_eq_true, List.mem_append]
    exact Or.inl hv

/-- Inserting a record with a fresh id appends it. -/
theorem mapInsert_of_fresh (st : Store) (u : User)
    (h : ∀ v ∈ st, v.id ≠ u.id) : mapInsert st u = st ++ [u] := by
  unfold mapInsert
  have hany : st.any (fun v => v.id == u.id) = false := by
    rw [List.any_eq_false]
    intro x hx
    simp [h x hx]
  simp [hany]

/-! ### C1 -/

/-- C1: Create on a user with empty id and zero timestamps, whose email no
live record carries, succeeds, assigns a non-empty id, and GetByID with
the assigned id returns a record with the input email and name and with
`createdAt = updatedAt` (both the creation instant). -/
theorem create_then_getByID_roundtrip (st : Store) (email name : String) (now : Nat)
    (hfresh : ∀ v ∈ st, v.email ≠ email) :
    (mockCreate st ⟨"", email, name, 0, 0⟩ now).2.2 = none ∧
    (mockCreate st ⟨"", email, name, 0, 0⟩ now).2.1.id ≠ "" ∧
    mockGetByID (mockCreate st ⟨"", email, name, 0, 0⟩ now).1
        (mockCreate st ⟨"", email, name, 0, 0⟩ now).2.1.id =
      (some ⟨(mockCreate st ⟨"", email, name, 0, 0⟩ now).2.1.id, email, name, now, now⟩,
        none) := by
  have hdef : createDefaults ⟨"", email, name, 0, 0⟩ now =
      ⟨"user_" ++ toString now, email, name, now, now⟩ :=
    createDefaults_of_zero _ _ rfl rfl rfl
  have hany : st.any (fun v =>
      v.email == (createDefaults ⟨"", email, name, 0, 0⟩ now).email) = false := by
    rw [List.any_eq_false]
    intro x hx
    rw [hdef]
    simp [hfresh x hx]
  unfold mockCreate
  rw [hdef] at hany ⊢
  simp only [hany, Bool.false_eq_true, if_false]
  refine ⟨trivial, genId_ne_empty now, ?_⟩
  unfold mockGetByID
  rw [mapInsert_find_self st ⟨"user_" ++ toString now, email, name, now, now⟩]

/-- Witness for C1 at a concrete input. -/
theorem create_then_getByID_roundtrip_witness :
    (mockCreate [] ⟨"", "a@x.com", "A", 0, 0⟩ 5).2.2 = none ∧
    (mockCreate [] ⟨"", "a@x.com", "A", 0, 0⟩ 5).2.1.id ≠ "" ∧
    mockGetByID (mockCreate [] ⟨"", "a@x.com", "A", 0, 0⟩ 5).1
        (mockCreate [] ⟨"", "a@x.com", "A", 0, 0⟩ 5).2.1.id =
      (some ⟨(mockCreate [] ⟨"", "a@x.com", "A", 0, 0⟩ 5).2.1.id, "a@x.com", "A", 5, 5⟩,
        none) :=
  create_then_getByID_roundtrip [] "a@x.com" "A" 5 (by simp)

/-! ### C2 -/

/-- C2: Create of a user whose email matches a live record fails with the
AlreadyExists kind and leaves the store's records unchanged, in both the
in-memory store and the relational adapter (on a working connection). -/
theorem create_duplicate_email_rejected :
    (∀ (st : Store) (u : User) (now : Nat) (w : User), w ∈ st → w.email = u.email →
      (mockCreate st u now).1 = st ∧
      (mockCreate st u now).2.2 = some RepoErr.alreadyExists) ∧
    (∀ (db : PgDb) (u : User) (fid : String) (now : Nat) (w : User),
      db.fault = false → w ∈ db.rows → w.email = u.email →
      (pgCreate db u fid now).1 = db ∧
      (pgCreate db u fid now).2.2 = some RepoErr.alreadyExists) := by
  constructor
  · intro st u now w hw he
    have hany : st.any (fun v => v.email == (createDefaults u now).email) = true := by
      rw [List.any_eq_true]
      exact ⟨w, hw, by simp [createDefaults_email, he]⟩
    unfold mockCreate
    simp [hany]
  · intro db u fid now w hf hw he
    have hsome : (db.rows.find? (fun v => v.email == u.email)).isSome := by
      rw [List.find?_isSome]
      exact ⟨w, hw, by simp [he]⟩
    obtain ⟨x, hx⟩ := Option.isSome_iff_exists.mp hsome
    unfold pgCreate pgFirst
    simp [hf, hx]

/-- Witness for C2 at a concrete input. -/
theorem create_duplicate_email_rejected_witness :
    ((mockCreate [⟨"u1", "a@x.com", "A", 1, 1⟩] ⟨"", "a@x.com", "B", 0, 0⟩ 5).1 =
        [⟨"u1", "a@x.com", "A", 1, 1⟩] ∧
      (mockCreate [⟨"u1", "a@x.com", "A", 1, 1⟩] ⟨"", "a@x.com", "B", 0, 0⟩ 5).2.2 =
        some RepoErr.alreadyExists) ∧
    ((pgCreate ⟨[⟨"u1", "a@x.com", "A", 1, 1⟩], false⟩ ⟨"", "a@x.com", "B", 0, 0⟩
        "user_f" 5).1 = ⟨[⟨"u1", "a@x.com", "A", 1, 1⟩], false⟩ ∧
      (pgCreate ⟨[⟨"u1", "a@x.com", "A", 1, 1⟩], false⟩ ⟨"", "a@x.com", "B", 0, 0⟩
        "user_f" 5).2.2 = some RepoErr.alreadyExists) :=
  ⟨create_duplicate_email_rejected.1 [⟨"u1", "a@x.com", "A", 1, 1⟩]
      ⟨"", "a@x.com", "B", 0, 0⟩ 5 ⟨"u1", "a@x.com", "A", 1, 1⟩ (by decide) rfl,
    create_duplicate_email_rejected.2 ⟨[⟨"u1", "a@x.com", "A", 1, 1⟩], false⟩
      ⟨"", "a@x.com", "B", 0, 0⟩ "user_f" 5 ⟨"u1", "a@x.com", "A", 1, 1⟩ rfl
      (by decide) rfl⟩

/-! ### C3 -/

/-- C3: when no record matches, GetByID and GetByEmail return a nil user
with a nil error in both stores; the in-memory store never returns an
error at all, and the relational adapter returns a non-nil error only when
the backing connection has failed. -/
theorem get_absent_returns_nil_nil :
    (∀ (st : Store) (id : String), (∀ v ∈ st, v.id ≠ id) →
      mockGetByID st id = (none, none)) ∧
    (∀ (st : Store) (email : String), (∀ v ∈ st, v.email ≠ email) →
      mockGetByEmail st email = (none, none)) ∧
    (∀ (st : Store) (id : String), (mockGetByID st id).2 = none) ∧
    (∀ (st : Store) (email : String), (mockGetByEmail st email).2 = none) ∧
    (∀ (db : PgDb) (id : String), db.fault = false → (∀ v ∈ db.rows, v.id ≠ id) →
      pgGetByID db id = (none, none)) ∧
    (∀ (db : PgDb) (email : String), db.fault = false →
      (∀ v ∈ db.rows, v.email ≠ email) → pgGetByEmail db email = (none, none)) ∧
    (∀ (db : PgDb) (id : String) (e : RepoErr), (pgGetByID db id).2 = some e →
      db.fault = true) ∧
    (∀ (db : PgDb) (email : String) (e : RepoErr), (pgGetByEmail db email).2 = some e →
      db.fault = true) := by
  refine ⟨?_, ?_, ?_, ?_, ?_, ?_, ?_, ?_⟩
  · intro st id h
    have hn : st.find? (fun v => v.id == id) = none := by
      rw [List.find?_eq_none]
      intro x hx
      simp [h x hx]
    unfold mockGetByID
    rw [hn]
  · intro st email h
    have hn : st.find? (fun v => v.email == email) = none := by
      rw [List.find?_eq_none]
      intro x hx
      simp [h x hx]
    unfold mockGetByEmail
    rw [hn]
  · intro st id
    unfold mockGetByID
    cases st.find? (fun v => v.id == id) <;> rfl
  · intro st email
    unfold mockGetByEmail
    cases st.find? (fun v => v.email == email) <;> rfl
  · intro db id hf h
    have hn : db.rows.find? (fun v => v.id == id) = none := by
      rw [List.find?_eq_none]
      intro x hx
      simp [h x hx]
    unfold pgGetByID pgFirst
    simp [hf, hn]
  · intro db email hf h
    have hn : db.rows.find? (fun v => v.email == email) = none := by
      rw [List.find?_eq_none]
      intro x hx
      simp [h x hx]
    unfold pgGetByEmail pgFirst
    simp [hf, hn]
  · intro db id e h
    by_contra hf
    rw [Bool.not_eq_true] at hf
    unfold pgGetByID pgFirst at h
    rw [hf] at h
    cases hx : db.rows.find? (fun v => v.id == id) <;> simp [hx] at h
  · intro db email e h
    by_contra hf
    rw [Bool.not_eq_true] at hf
    unfold pgGetByEmail pgFirst at h
    rw [hf] at h
    cases hx : db.rows.find? (fun v => v.email == email) <;> simp [hx] at h

/-- Witness for C3 at a concrete input. -/
theorem get_absent_returns_nil_nil_witness :
    mockGetByID [⟨"u1", "a@x.com", "A", 1, 1⟩] "u2" = (none, none) ∧
    pgGetByEmail ⟨[⟨"u1", "a@x.com", "A", 1, 1⟩], false⟩ "b@x.com" = (none, none) :=
  ⟨get_absent_returns_nil_nil.1 [⟨"u1", "a@x.com", "A", 1, 1⟩] "u2" (by decide),
    get_absent_returns_nil_nil.2.2.2.2.2.1 ⟨[⟨"u1", "a@x.com", "A", 1, 1⟩], false⟩
      "b@x.com" rfl (by decide)⟩

/-! ### C10 -/

/-- C10: in the in-memory Create, id generation and timestamp assignment
happen before the email-uniqueness check, so a colliding Create fails with
AlreadyExists and leaves the store unchanged while the caller's user
argument already carries the assigned id (non-empty) and timestamps. -/
theorem create_assigns_fields_before_uniqueness_check (st : Store) (u : User)
    (now : Nat) (hid : u.id = "") (hc : u.createdAt = 0) (hup : u.updatedAt = 0)
    (w : User) (hw : w ∈ st) (he : w.email = u.email) :
    (mockCreate st u now).2.2 = some RepoErr.alreadyExists ∧
    (mockCreate st u now).1 = st ∧
    (mockCreate st u now).2.1 =
      { u with id := "user_" ++ toString now, createdAt := now, updatedAt := now } ∧
    ("user_" ++ toString now) ≠ "" := by
  have hdef := createDefaults_of_zero u now hid hc hup
  have hex : ∃ x ∈ st, x.email = u.email := ⟨w, hw, he⟩
  unfold mockCreate
  simp [hdef, hex, genId_ne_empty now]

/-- Witness for C10 at a concrete input. -/
theorem create_assigns_fields_before_uniqueness_check_witness :
    (mockCreate [⟨"u1", "a@x.com", "A", 1, 1⟩] ⟨"", "a@x.com", "B", 0, 0⟩ 9).2.2 =
      some RepoErr.alreadyExists ∧
    (mockCreate [⟨"u1", "a@x.com", "A", 1, 1⟩] ⟨"", "a@x.com", "B", 0, 0⟩ 9).1 =
      [⟨"u1", "a@x.com", "A", 1, 1⟩] ∧
    (mockCreate [⟨"u1", "a@x.com", "A", 1, 1⟩] ⟨"", "a@x.com", "B", 0, 0⟩ 9).2.1 =
      ⟨"user_" ++ toString 9, "a@x.com", "B", 9, 9⟩ ∧
    ("user_" ++ toString 9) ≠ "" :=
  create_assigns_fields_before_uniqueness_check [⟨"u1", "a@x.com", "A", 1, 1⟩]
    ⟨"", "a@x.com", "B", 0, 0⟩ 9 rfl rfl rfl ⟨"u1", "a@x.com", "A", 1, 1⟩
    (by decide) rfl

/-! ### C4 -/

/-- C4: Update fails with NotFound and leaves the store unchanged when the
target id is absent; on an existing id it succeeds, the stored record
takes the supplied name and email, keeps the previously stored createdAt,
and gets `updatedAt = now`, which under a monotone clock is at least the
previous updatedAt.  Both the in-memory store and the relational adapter
(on a working connection). -/
theorem update_notfound_or_refresh :
    (∀ (st : Store) (u : User) (now : Nat), (∀ v ∈ st, v.id ≠ u.id) →
      mockUpdate st u now = (st, some RepoErr.notFound)) ∧
    (∀ (st : Store) (u : User) (now : Nat) (ex : User),
      st.find? (fun v => v.id == u.id) = some ex → ex.updatedAt ≤ now →
      (mockUpdate st u now).2 = none ∧
      (mockUpdate st u now).1.find? (fun v => v.id == u.id) =
        some ⟨u.id, u.email, u.name, ex.createdAt, now⟩ ∧
      ex.updatedAt ≤ now) ∧
    (∀ (db : PgDb) (u : User) (now : Nat), db.fault = false →
      (∀ v ∈ db.rows, v.id ≠ u.id) →
      pgUpdate db u now = (db, u, some RepoErr.notFound)) ∧
    (∀ (db : PgDb) (u : User) (now : Nat) (ex : User), db.fault = false →
      db.rows.find? (fun v => v.id == u.id) = some ex → ex.updatedAt ≤ now →
      (pgUpdate db u now).2.2 = none ∧
      (pgUpdate db u now).1.rows.find? (fun v => v.id == u.id) =
        some { u with createdAt := ex.createdAt, updatedAt := now } ∧
      ex.updatedAt ≤ now) := by
  refine ⟨?_, ?_, ?_, ?_⟩
  · intro st u now h
    have hn : st.find? (fun v => v.id == u.id) = none := by
      rw [List.find?_eq_none]
      intro x hx
      simp [h x hx]
    unfold mockUpdate
    rw [hn]
  · intro st u now ex hfind hle
    unfold mockUpdate
    rw [hfind]
    refine ⟨rfl, ?_, hle⟩
    exact mapInsert_find_self st ⟨u.id, u.email, u.name, ex.createdAt, now⟩
  · intro db u now hf h
    have hn : db.rows.find? (fun v => v.id == u.id) = none := by
      rw [List.find?_eq_none]
      intro x hx
      simp [h x hx]
    unfold pgUpdate pgFirst
    simp [hf, hn]
  · intro db u now ex hf hfind hle
    have hmem := List.mem_of_find?_eq_some hfind
    have hid : ex.id = u.id := by
      have := List.find?_some hfind
      simpa using this
    unfold pgUpdate pgFirst
    simp only [hf, Bool.false_eq_true, if_false, hfind]
    refine ⟨trivial, ?_, hle⟩
    exact map_replace_find_self db.rows
      { u with createdAt := ex.createdAt, updatedAt := now } ⟨ex, hmem, hid⟩

/-- Witness for C4 at a concrete input. -/
theorem update_notfound_or_refresh_witness :
    ((mockUpdate [⟨"u1", "a@x.com", "A", 1, 2⟩] ⟨"u1", "b@x.com", "B", 0, 0⟩ 5).2 =
        none ∧
      (mockUpdate [⟨"u1", "a@x.com", "A", 1, 2⟩] ⟨"u1", "b@x.com", "B", 0, 0⟩
          5).1.find? (fun v => v.id == "u1") =
        some ⟨"u1", "b@x.com", "B", 1, 5⟩ ∧
      (2 : Nat) ≤ 5) ∧
    pgUpdate ⟨[⟨"u1", "a@x.com", "A", 1, 2⟩], false⟩ ⟨"u2", "b@x.com", "B", 0, 0⟩ 5 =
      (⟨[⟨"u1", "a@x.com", "A", 1, 2⟩], false⟩, ⟨"u2", "b@x.com", "B", 0, 0⟩,
        some RepoErr.notFound) :=
  ⟨update_notfound_or_refresh.2.1 [⟨"u1", "a@x.com", "A", 1, 2⟩]
      ⟨"u1", "b@x.com", "B", 0, 0⟩ 5 ⟨"u1", "a@x.com", "A", 1, 2⟩ (by decide)
      (by decide),
    update_notfound_or_refresh.2.2.1 ⟨[⟨"u1", "a@x.com", "A", 1, 2⟩], false⟩
      ⟨"u2", "b@x.com", "B", 0, 0⟩ 5 rfl (by decide)⟩

/-! ### C5 -/

/-- C5: Delete on an existing id succeeds and removes exactly that record
(records with other ids survive), after which GetByID on the id yields
`(nil, nil)` and a second Delete fails with NotFound; Delete on an absent
id always fails with NotFound and changes nothing.  Both stores. -/
theorem delete_then_notfound :
    (∀ (st : Store) (id : String) (w : User), w ∈ st → w.id = id →
      (mockDelete st id).2 = none ∧
      (mockDelete st id).1 = st.filter (fun v => v.id ≠ id) ∧
      (∀ v ∈ st, v.id ≠ id → v ∈ (mockDelete st id).1) ∧
      mockGetByID (mockDelete st id).1 id = (none, none) ∧
      mockDelete (mockDelete st id).1 id =
        ((mockDelete st id).1, some RepoErr.notFound)) ∧
    (∀ (st : Store) (id : String), (∀ v ∈ st, v.id ≠ id) →
      mockDelete st id = (st, some RepoErr.notFound)) ∧
    (∀ (db : PgDb) (id : String) (w : User), db.fault = false → w ∈ db.rows →
      w.id = id →
      (pgDelete db id).2 = none ∧
      (pgDelete db id).1.rows = db.rows.filter (fun v => v.id ≠ id) ∧
      (∀ v ∈ db.rows, v.id ≠ id → v ∈ (pgDelete db id).1.rows) ∧
      pgGetByID (pgDelete db id).1 id = (none, none) ∧
      pgDelete (pgDelete db id).1 id =
        ((pgDelete db id).1, some RepoErr.notFound)) ∧
    (∀ (db : PgDb) (id : String), db.fault = false → (∀ v ∈ db.rows, v.id ≠ id) →
      pgDelete db id = (db, some RepoErr.notFound)) := by
  have hfilter_mem : ∀ (l : List User) (id : String) (v : User), v ∈ l → v.id ≠ id →
      v ∈ l.filter (fun x => x.id ≠ id) := by
    intro l id v hv hne
    rw [List.mem_filter]
    exact ⟨hv, by simp [hne]⟩
  have hfilter_none : ∀ (l : List User) (id : String),
      (l.filter (fun x => x.id ≠ id)).find? (fun v => v.id == id) = none := by
    intro l id
    rw [List.find?_eq_none]
    intro x hx
    rw [List.mem_filter] at hx
    simp only [decide_not, Bool.not_eq_eq_eq_not, Bool.not_true, decide_eq_false_iff_not]
      at hx
    simp [hx.2]
  have hfilter_any : ∀ (l : List User) (id : String),
      (l.filter (fun x => x.id ≠ id)).any (fun v => v.id == id) = false := by
    intro l id
    rw [List.any_eq_false]
    intro x hx
    rw [List.mem_filter] at hx
    simp only [decide_not, Bool.not_eq_eq_eq_not, Bool.not_true, decide_eq_false_iff_not]
      at hx
    simp [hx.2]
  have hfilter_self : ∀ (l : List User) (id : String),
      (l.filter (fun x => x.id ≠ id)).filter (fun x => x.id ≠ id) =
        l.filter (fun x => x.id ≠ id) := by
    intro l id
    rw [List.filter_eq_self]
    intro a ha
    exact (List.mem_filter.mp ha).2
  refine ⟨?_, ?_, ?_, ?_⟩
  · intro st id w hw hid
    have hany : st.any (fun v => v.id == id) = true := by
      rw [List.any_eq_true]
      exact ⟨w, hw, by simp [hid]⟩
    have hdel : mockDelete st id = (st.filter (fun v => v.id ≠ id), none) := by
      unfold mockDelete
      simp [hany]
    rw [hdel]
    refine ⟨rfl, rfl, ?_, ?_, ?_⟩
    · intro v hv hne
      exact hfilter_mem st id v hv hne
    · unfold mockGetByID
      rw [hfilter_none st id]
    · unfold mockDelete
      rw [hfilter_any st id]
      simp
  · intro st id h
    have hany : st.any (fun v => v.id == id) = false := by
      rw [List.any_eq_false]
      intro x hx
      simp [h x hx]
    unfold mockDelete
    simp [hany]
  · intro db id w hf hw hid
    have hlt : (db.rows.filter (fun v => v.id ≠ id)).length < db.rows.length := by
      rw [List.length_filter_lt_length_iff_exists]
      exact ⟨w, hw, by simp [hid]⟩
    have hdel : pgDelete db id = (⟨db.rows.filter (fun v => v.id ≠ id), db.fault⟩, none) := by
      unfold pgDelete
      rw [hf]
      simp only [Bool.false_eq_true, if_false]
      rw [if_neg (by omega)]
    rw [hdel]
    refine ⟨rfl, rfl, ?_, ?_, ?_⟩
    · intro v hv hne
      exact hfilter_mem db.rows id v hv hne
    · unfold pgGetByID pgFirst
      rw [hf]
      simp only [Bool.false_eq_true, if_false]
      rw [hfilter_none db.rows id]
    · unfold pgDelete
      rw [hf]
      simp only [Bool.false_eq_true, if_false]
      rw [if_pos (by rw [hfilter_self db.rows id])]
  · intro db id hf h
    have hself : db.rows.filter (fun v => v.id ≠ id) = db.rows := by
      rw [List.filter_eq_self]
      intro a ha
      simp [h a ha]
    unfold pgDelete
    rw [hf]
    simp only [Bool.false_eq_true, if_false]
    rw [if_pos (by rw [hself])]

/-- Witness for C5 at a concrete input. -/
theorem delete_then_notfound_witness :
    ((mockDelete [⟨"u1", "a@x.com", "A", 1, 1⟩] "u1").2 = none ∧
      (mockDelete [⟨"u1", "a@x.com", "A", 1, 1⟩] "u1").1 =
        [⟨"u1", "a@x.com", "A", 1, 1⟩].filter (fun v => v.id ≠ "u1") ∧
      (∀ v ∈ [⟨"u1", "a@x.com", "A", 1, 1⟩], v.id ≠ "u1" →
        v ∈ (mockDelete [⟨"u1", "a@x.com", "A", 1, 1⟩] "u1").1) ∧
      mockGetByID (mockDelete [⟨"u1", "a@x.com", "A", 1, 1⟩] "u1").1 "u1" =
        (none, none) ∧
      mockDelete (mockDelete [⟨"u1", "a@x.com", "A", 1, 1⟩] "u1").1 "u1" =
        ((mockDelete [⟨"u1", "a@x.com", "A", 1, 1⟩] "u1").1,
          some RepoErr.notFound)) ∧
    pgDelete ⟨[⟨"u1", "a@x.com", "A", 1, 1⟩], false⟩ "u2" =
      (⟨[⟨"u1", "a@x.com", "A", 1, 1⟩], false⟩, some RepoErr.notFound) :=
  ⟨delete_then_notfound.1 [⟨"u1", "a@x.com", "A", 1, 1⟩] "u1"
      ⟨"u1", "a@x.com", "A", 1, 1⟩ (by decide) rfl,
    delete_then_notfound.2.2.2 ⟨[⟨"u1", "a@x.com", "A", 1, 1⟩], false⟩ "u2" rfl
      (by decide)⟩

/-! ### C6 -/

/-- C6 fails as stated: a successful Update may give a user the email of
another live record, because `MockUserRepository.Update` never re-checks
email uniqueness.  Concretely, updating `u2` to the email of `u1`
succeeds and leaves two live records with email `a@x.com`. -/
theorem update_breaks_email_uniqueness_cex :
    emailUnique [⟨"u1", "a@x.com", "A", 1, 1⟩, ⟨"u2", "b@x.com", "B", 1, 1⟩] ∧
    (mockUpdate [⟨"u1", "a@x.com", "A", 1, 1⟩, ⟨"u2", "b@x.com", "B", 1, 1⟩]
        ⟨"u2", "a@x.com", "B2", 0, 0⟩ 2).2 = none ∧
    ¬ emailUnique
      (mockUpdate [⟨"u1", "a@x.com", "A", 1, 1⟩, ⟨"u2", "b@x.com", "B", 1, 1⟩]
        ⟨"u2", "a@x.com", "B2", 0, 0⟩ 2).1 := by
  decide

/-- Replacing the records carrying id `u.id` by `u` keeps emails unique,
provided ids are unique and `u`'s email does not collide with a record
under a different id. -/
theorem emailUnique_replace (st : List User) (u : User)
    (hid : idUnique st) (hem : emailUnique st)
    (hno : ∀ v ∈ st, v.id ≠ u.id → v.email ≠ u.email) :
    emailUnique (st.map (fun v => if v.id == u.id then u else v)) := by
  unfold emailUnique idUnique at *
  rw [List.pairwise_map]
  refine (hem.and hid).imp_of_mem ?_
  intro a b ha hb hab
  by_cases ha' : a.id = u.id <;> by_cases hb' : b.id = u.id
  · exact absurd (ha'.trans hb'.symm) hab.2
  · simp only [ha', hb']
    simp only [beq_self_eq_true, if_true, beq_iff_eq, hb', if_false]
    exact (hno b hb hb').symm
  · simp only [beq_iff_eq, ha', hb', if_true, if_false]
    exact hno a ha ha'
  · simp only [beq_iff_eq, ha', hb', if_false]
    exact hab.1

/-- A map insert keeps emails unique when the inserted record's email
collides with no record under a different id. -/
theorem emailUnique_mapInsert (st : List User) (u : User)
    (hid : idUnique st) (hem : emailUnique st)
    (hno : ∀ v ∈ st, v.id ≠ u.id → v.email ≠ u.email) :
    emailUnique (mapInsert st u) := by
  unfold mapInsert
  by_cases h : st.any (fun v => v.id == u.id)
  · simp only [h, if_true]
    exact emailUnique_replace st u hid hem hno
  · simp only [h, if_false, Bool.false_eq_true]
    unfold emailUnique at *
    rw [List.pairwise_append]
    refine ⟨hem, List.pairwise_singleton _ _, ?_⟩
    intro a ha b hb
    rw [List.mem_singleton] at hb
    subst hb
    have haid : a.id ≠ b.id := by
      intro he
      exact h (List.any_eq_true.mpr ⟨a, ha, by simp [he]⟩)
    exact hno a ha haid

/-- C6 amended: Create and Delete preserve email uniqueness, and Update
preserves it exactly when the supplied email does not belong to a live
record with a different id — the store performs no such re-check itself. -/
theorem email_uniqueness_preservation :
    (∀ (st : Store) (u : User) (now : Nat), idUnique st → emailUnique st →
      emailUnique (mockCreate st u now).1) ∧
    (∀ (st : Store) (id : String), emailUnique st →
      emailUnique (mockDelete st id).1) ∧
    (∀ (st : Store) (u : User) (now : Nat), idUnique st → emailUnique st →
      (∀ v ∈ st, v.id ≠ u.id → v.email ≠ u.email) →
      emailUnique (mockUpdate st u now).1) := by
  refine ⟨?_, ?_, ?_⟩
  · intro st u now hid hem
    unfold mockCreate
    by_cases h : st.any (fun v => v.email == (createDefaults u now).email)
    · simp only [h, if_true]
      exact hem
    · simp only [h, if_false, Bool.false_eq_true]
      show emailUnique (mapInsert st (createDefaults u now))
      apply emailUnique_mapInsert st _ hid hem
      intro v hv _ he
      exact h (List.any_eq_true.mpr ⟨v, hv, by simp [he]⟩)
  · intro st id hem
    unfold mockDelete
    by_cases h : st.any (fun v => v.id == id)
    · simp only [h, if_true]
      exact hem.filter _
    · simp only [h, if_false, Bool.false_eq_true]
      exact hem
  · intro st u now hid hem hno
    unfold mockUpdate
    cases hfind : st.find? (fun v => v.id == u.id) with
    | none => exact hem
    | some ex =>
        show emailUnique (mapInsert st _)
        apply emailUnique_mapInsert st _ hid hem
        intro v hv hne
        exact hno v hv hne

/-- Witness for the amended C6 at a concrete input. -/
theorem email_uniqueness_preservation_witness :
    emailUnique
      (mockCreate [⟨"u1", "a@x.com", "A", 1, 1⟩] ⟨"", "b@x.com", "B", 0, 0⟩ 5).1 :=
  email_uniqueness_preservation.1 [⟨"u1", "a@x.com", "A", 1, 1⟩]
    ⟨"", "b@x.com", "B", 0, 0⟩ 5 (by decide) (by decide)

/-! ### C7 -/

instance : DecidablePred tsInv := fun st =>
  List.decidableBAll _ st

/-- C7 fails as stated: Create stores caller-supplied non-zero timestamps
verbatim, so a user created with `createdAt = 5, updatedAt = 3` is stored
with `updatedAt < createdAt`. -/
theorem create_nonzero_timestamps_cex :
    (mockCreate [] ⟨"u9", "a@x.com", "A", 5, 3⟩ 10).2.2 = none ∧
    ¬ tsInv (mockCreate [] ⟨"u9", "a@x.com", "A", 5, 3⟩ 10).1 := by
  decide

/-- Both timestamps of a zero-timestamped user are set to `now`. -/
theorem createDefaults_ts_of_zero (u : User) (now : Nat)
    (hc : u.createdAt = 0) (hup : u.updatedAt = 0) :
    (createDefaults u now).createdAt = now ∧
    (createDefaults u now).updatedAt = now := by
  rcases u with ⟨i, e, nm, c, up⟩
  simp only at hc hup
  subst hc; subst hup
  unfold createDefaults
  by_cases h1 : i = "" <;> by_cases hn : now = 0 <;> simp [h1, hn]

/-- Every record of `mapInsert st u` is an old record or `u` itself. -/
theorem mem_mapInsert (st : Store) (u v : User) (hv : v ∈ mapInsert st u) :
    v ∈ st ∨ v = u := by
  unfold mapInsert at hv
  by_cases h : st.any (fun w => w.id == u.id)
  · simp only [h, if_true] at hv
    obtain ⟨a, ha, hfa⟩ := List.mem_map.mp hv
    by_cases ha' : a.id = u.id
    · right
      rw [← hfa]
      simp [ha']
    · left
      rw [← hfa]
      simpa [ha'] using ha
  · simp only [h, if_false, Bool.false_eq_true] at hv
    rcases List.mem_append.mp hv with h1 | h2
    · exact Or.inl h1
    · exact Or.inr (List.mem_singleton.mp h2)

/-- C7 amended: when the store itself assigns the timestamps (Create
called with both timestamps zero), `updatedAt ≥ createdAt` holds for every
stored record and is preserved by Update under a monotone clock and by
Delete; moreover no operation invents a fresh `createdAt` for an id:
records surviving Update or Delete trace their `createdAt` back to a
record with the same id in the previous state, and a Create whose
effective id is fresh leaves every existing record in place. -/
theorem timestamps_invariant_amended :
    (∀ (st : Store) (u : User) (now : Nat), u.createdAt = 0 → u.updatedAt = 0 →
      tsInv st → tsInv (mockCreate st u now).1) ∧
    (∀ (st : Store) (u : User) (now : Nat), (∀ v ∈ st, v.createdAt ≤ now) →
      tsInv st → tsInv (mockUpdate st u now).1) ∧
    (∀ (st : Store) (id : String), tsInv st → tsInv (mockDelete st id).1) ∧
    (∀ (st : Store) (u : User) (now : Nat) (w : User), w ∈ (mockUpdate st u now).1 →
      ∃ v ∈ st, v.id = w.id ∧ v.createdAt = w.createdAt) ∧
    (∀ (st : Store) (id : String) (w : User), w ∈ (mockDelete st id).1 → w ∈ st) ∧
    (∀ (st : Store) (u : User) (now : Nat),
      (∀ v ∈ st, v.id ≠ (createDefaults u now).id) →
      ∀ v ∈ st, v ∈ (mockCreate st u now).1) := by
  refine ⟨?_, ?_, ?_, ?_, ?_, ?_⟩
  · intro st u now hc hup hinv
    unfold mockCreate
    by_cases h : st.any (fun v => v.email == (createDefaults u now).email)
    · simp only [h, if_true]
      exact hinv
    · simp only [h, if_false, Bool.false_eq_true]
      intro v hv
      rcases mem_mapInsert st _ v hv with hold | hnew
      · exact hinv v hold
      · obtain ⟨hcd, hud⟩ := createDefaults_ts_of_zero u now hc hup
        rw [hnew, hcd, hud]
  · intro st u now hmono hinv
    unfold mockUpdate
    cases hfind : st.find? (fun v => v.id == u.id) with
    | none => exact hinv
    | some ex =>
        intro v hv
        rcases mem_mapInsert st _ v hv with hold | hnew
        · exact hinv v hold
        · rw [hnew]
          exact hmono ex (List.mem_of_find?_eq_some hfind)
  · intro st id hinv
    unfold mockDelete
    by_cases h : st.any (fun v => v.id == id)
    · simp only [h, if_true]
      intro v hv
      exact hinv v (List.mem_filter.mp hv).1
    · simp only [h, if_false, Bool.false_eq_true]
      exact hinv
  · intro st u now w hw
    unfold mockUpdate at hw
    cases hfind : st.find? (fun v => v.id == u.id) with
    | none =>
        rw [hfind] at hw
        exact ⟨w, hw, rfl, rfl⟩
    | some ex =>
        rw [hfind] at hw
        rcases mem_mapInsert st _ w hw with hold | hnew
        · exact ⟨w, hold, rfl, rfl⟩
        · have hexid := List.find?_some hfind
          simp only [beq_iff_eq] at hexid
          refine ⟨ex, List.mem_of_find?_eq_some hfind, ?_, ?_⟩
          · rw [hnew, hexid]
          · rw [hnew]
  · intro st id w hw
    unfold mockDelete at hw
    by_cases h : st.any (fun v => v.id == id)
    · simp only [h, if_true] at hw
      exact (List.mem_filter.mp hw).1
    · simp only [h, if_false, Bool.false_eq_true] at hw
      exact hw
  · intro st u now hfresh v hv
    unfold mockCreate
    by_cases h : st.any (fun w => w.email == (createDefaults u now).email)
    · simp only [h, if_true]
      exact hv
    · simp only [h, if_false, Bool.false_eq_true]
      show v ∈ mapInsert st (createDefaults u now)
      rw [mapInsert_of_fresh st _ hfresh]
      exact List.mem_append.mpr (Or.inl hv)

/-- Witness for the amended C7 at a concrete input. -/
theorem timestamps_invariant_amended_witness :
    tsInv (mockUpdate [⟨"u1", "a@x.com", "A", 1, 2⟩] ⟨"u1", "b@x.com", "B", 0, 0⟩ 5).1 :=
  timestamps_invariant_amended.2.1 [⟨"u1", "a@x.com", "A", 1, 2⟩]
    ⟨"u1", "b@x.com", "B", 0, 0⟩ 5 (by decide) (by decide)

/-! ### The List loop characterization -/

/-- Once the offset is exhausted, the loop appends records until the limit
is reached. -/
theorem listLoop_of_count_ge (visit : List User) (limit offset : Int) :
    ∀ (count : Int) (acc : List User), offset ≤ count →
      listLoop visit limit offset count acc =
        acc ++ visit.take (limit.toNat - acc.length) := by
  induction visit with
  | nil =>
      intro count acc _
      simp [listLoop]
  | cons u rest ih =>
      intro count acc h
      unfold listLoop
      rw [if_pos h]
      by_cases hl : (acc.length : Int) ≥ limit
      · rw [if_pos hl]
        have hz : limit.toNat - acc.length = 0 := by omega
        rw [hz]
        simp
      · rw [if_neg hl]
        rw [ih (count + 1) (acc ++ [u]) (by omega)]
        rw [List.append_assoc]
        congr 1
        have hlen : (acc ++ [u]).length = acc.length + 1 := by
          simp
        rw [hlen]
        have hsplit : limit.toNat - acc.length = (limit.toNat - (acc.length + 1)) + 1 := by
          omega
        rw [hsplit, List.take_succ_cons]
        rfl

/-- While `count < offset`, the loop drops records. -/
theorem listLoop_skip (visit : List User) (limit offset : Int) :
    ∀ (count : Int) (acc : List User), count ≤ offset →
      listLoop visit limit offset count acc =
        acc ++ (visit.drop (offset - count).toNat).take (limit.toNat - acc.length) := by
  induction visit with
  | nil =>
      intro count acc _
      simp [listLoop]
  | cons u rest ih =>
      intro count acc h
      by_cases hc : count ≥ offset
      · have hz : (offset - count).toNat = 0 := by omega
        rw [hz, List.drop_zero]
        exact listLoop_of_count_ge (u :: rest) limit offset count acc hc
      · unfold listLoop
        rw [if_neg hc]
        rw [ih (count + 1) acc (by omega)]
        congr 1
        have hsplit : (offset - count).toNat = (offset - (count + 1)).toNat + 1 := by
          omega
        rw [hsplit, List.drop_succ_cons]

/-- `MockUserRepository.List` returns exactly the window
`take limit.toNat (drop offset.toNat visit)` of the visited sequence, and
never an error; `Int.toNat` clamps negative arguments to `0`. -/
theorem mockList_eq (visit : List User) (limit offset : Int) :
    mockList visit limit offset =
      ((visit.drop offset.toNat).take limit.toNat, none) := by
  unfold mockList
  by_cases h : (0 : Int) ≤ offset
  · rw [listLoop_skip visit limit offset 0 [] h]
    rw [Int.sub_zero]
    simp
  · have h0 : offset ≤ 0 := by omega
    rw [listLoop_of_count_ge visit limit offset 0 [] h0]
    have hz : offset.toNat = 0 := by omega
    rw [hz, List.drop_zero]
    simp

/-! ### C9 -/

/-- C9: for every iteration order and all integer limit/offset values,
including `limit ≤ 0` and `offset < 0`, List is total, skips the first
`max(offset,0)` visited records, returns at most `max(limit,0)` of the
following records (none when `limit ≤ 0`), and reports no error. -/
theorem list_total_and_clamped (visit : List User) (limit offset : Int) :
    mockList visit limit offset =
      ((visit.drop offset.toNat).take limit.toNat, none) ∧
    (mockList visit limit offset).1.length ≤ limit.toNat ∧
    (limit ≤ 0 → (mockList visit limit offset).1 = []) ∧
    (mockList visit limit offset).2 = none := by
  have h := mockList_eq visit limit offset
  refine ⟨h, ?_, ?_, ?_⟩
  · rw [h]
    simp only [List.length_take]
    exact min_le_left _ _
  · intro hl
    rw [h]
    have hz : limit.toNat = 0 := by omega
    rw [hz]
    rfl
  · rw [h]

/-- Witness for C9 at a concrete input with negative limit and offset. -/
theorem list_total_and_clamped_witness :
    mockList [⟨"u1", "a@x.com", "A", 1, 1⟩] (-1) (-2) =
      (([⟨"u1", "a@x.com", "A", 1, 1⟩].drop ((-2 : Int)).toNat).take
        ((-1 : Int)).toNat, none) ∧
    (mockList [⟨"u1", "a@x.com", "A", 1, 1⟩] (-1) (-2)).1.length ≤
      ((-1 : Int)).toNat ∧
    ((-1 : Int) ≤ 0 → (mockList [⟨"u1", "a@x.com", "A", 1, 1⟩] (-1) (-2)).1 = []) ∧
    (mockList [⟨"u1", "a@x.com", "A", 1, 1⟩] (-1) (-2)).2 = none :=
  list_total_and_clamped [⟨"u1", "a@x.com", "A", 1, 1⟩] (-1) (-2)

/-! ### C8 -/

/-- C8 as stated: over a fixed store of M > N > 0 distinct records with no
mutation between the calls, List(N, 0) and List(N, N) give disjoint result
sets, and (when N evenly divides the ranges, here M = 2N) their union
reconstructs all records.  Each call ranges over the unmodified map, whose
iteration order Go leaves unspecified, so each call's visiting sequence is
an arbitrary permutation of the store. -/
def listPagesClaim : Prop :=
  ∀ (st : Store) (N : Int) (visit1 visit2 : List User),
    0 < N → N < (st.length : Int) → st.Nodup →
    visit1.Perm st → visit2.Perm st →
    (mockList visit1 N 0).1.Disjoint (mockList visit2 N N).1 ∧
    (st.length = 2 * N.toNat →
      ((mockList visit1 N 0).1 ++ (mockList visit2 N N).1).Perm st)

/-- C8 fails as stated: Go map iteration order may differ between the two
range loops even with no mutation, and with M = 2, N = 1 and opposite
iteration orders both pages contain the same record. -/
theorem list_pages_distinct_orders_cex : ¬ listPagesClaim := by
  intro h
  have h2 := h [⟨"u1", "a@x.com", "A", 1, 1⟩, ⟨"u2", "b@x.com", "B", 1, 1⟩] 1
    [⟨"u1", "a@x.com", "A", 1, 1⟩, ⟨"u2", "b@x.com", "B", 1, 1⟩]
    [⟨"u2", "b@x.com", "B", 1, 1⟩, ⟨"u1", "a@x.com", "A", 1, 1⟩]
    (by decide) (by decide) (by decide) (by decide) (by decide)
  exact h2.1
    (show (⟨"u1", "a@x.com", "A", 1, 1⟩ : User) ∈
      (mockList [⟨"u1", "a@x.com", "A", 1, 1⟩, ⟨"u2", "b@x.com", "B", 1, 1⟩] 1 0).1 by
        decide)
    (show (⟨"u1", "a@x.com", "A", 1, 1⟩ : User) ∈
      (mockList [⟨"u2", "b@x.com", "B", 1, 1⟩, ⟨"u1", "a@x.com", "A", 1, 1⟩] 1 1).1 by
        decide)

/-- The successive pages List(N, k·N), List(N, (k+1)·N), …, taken over one
fixed visiting sequence. -/
def pagesFrom (visit : List User) (N : Int) : Nat → Nat → List User
  | _, 0 => []
  | k, p + 1 => (mockList visit N ((k : Int) * N)).1 ++ pagesFrom visit N (k + 1) p

/-- Each page is a window of the visiting sequence, and consecutive pages
concatenate to a larger window. -/
theorem pagesFrom_eq (visit : List User) (N : Int) (hN : 0 < N) :
    ∀ (p k : Nat), pagesFrom visit N k p =
      (visit.drop (k * N.toNat)).take (p * N.toNat) := by
  intro p
  induction p with
  | zero =>
      intro k
      simp [pagesFrom]
  | succ p ih =>
      intro k
      unfold pagesFrom
      rw [mockList_eq]
      have hcast : ((k : Int) * N) = ((k * N.toNat : Nat) : Int) := by
        have hNn : ((N.toNat : Int)) = N := Int.toNat_of_nonneg (le_of_lt hN)
        push_cast
        rw [hNn]
      rw [hcast, Int.toNat_natCast]
      rw [ih (k + 1)]
      have hdd : visit.drop ((k + 1) * N.toNat) = (visit.drop (k * N.toNat)).drop N.toNat := by
        rw [List.drop_drop]
        congr 1
        ring
      rw [hdd]
      have hsum : (p + 1) * N.toNat = N.toNat + p * N.toNat := by
        ring
      rw [hsum, List.take_add]

/-- C8 amended: when the two calls visit the records in the same order
(one fixed iteration sequence with distinct records), List(N, 0) and
List(N, N) are disjoint, and when N evenly divides the record count the
concatenation of the successive pages reconstructs the whole sequence. -/
theorem list_pagination_single_iteration (visit : List User) (N : Int) (p : Nat)
    (hN : 0 < N) (hnd : visit.Nodup) :
    (mockList visit N 0).1.Disjoint (mockList visit N N).1 ∧
    (visit.length = p * N.toNat → pagesFrom visit N 0 p = visit) := by
  constructor
  · rw [mockList_eq, mockList_eq]
    intro a ha hb
    have h0 : ((0 : Int)).toNat = 0 := rfl
    rw [h0, List.drop_zero] at ha
    have hb' : a ∈ visit.drop N.toNat := List.take_subset _ _ hb
    exact List.disjoint_take_drop hnd (le_refl N.toNat) ha hb'
  · intro hlen
    rw [pagesFrom_eq visit N hN p 0]
    simp only [Nat.zero_mul, List.drop_zero]
    rw [← hlen, List.take_length]

/-- Witness for the amended C8 at a concrete input. -/
theorem list_pagination_single_iteration_witness :
    (mockList [⟨"u1", "a@x.com", "A", 1, 1⟩, ⟨"u2", "b@x.com", "B", 1, 1⟩] 1 0).1.Disjoint
      (mockList [⟨"u1", "a@x.com", "A", 1, 1⟩, ⟨"u2", "b@x.com", "B", 1, 1⟩] 1 1).1 ∧
    (([⟨"u1", "a@x.com", "A", 1, 1⟩, ⟨"u2", "b@x.com", "B", 1, 1⟩] : List User).length =
        2 * (1 : Int).toNat →
      pagesFrom [⟨"u1", "a@x.com", "A", 1, 1⟩, ⟨"u2", "b@x.com", "B", 1, 1⟩] 1 0 2 =
        [⟨"u1", "a@x.com", "A", 1, 1⟩, ⟨"u2", "b@x.com", "B", 1, 1⟩]) :=
  list_pagination_single_iteration
    [⟨"u1", "a@x.com", "A", 1, 1⟩, ⟨"u2", "b@x.com", "B", 1, 1⟩] 1 2
    (by decide) (by decide)
